import Mathlib

/-!
# qlog: a zap/lumberjack logger configuration and its gin middleware

A shallow embedding of `logger.go` and `logger_gin.go`.

* Go strings are Lean `String`s; `len(s) > 0` is read on the character list
  (a string has zero bytes exactly when it has zero characters).
* Go `int` values are `Int` (no property below depends on overflow).
* A pointer that may be nil (`*LogFileConfig`) is an `Option`; dereferencing
  nil is the runtime panic `GoPanic.nilDereference`.
* A function that writes through a pointer returns the written value next to
  its result.
* The outside world is passed in: `os.Stat` as a function from paths to
  `Option FileInfo`, `time.Now()` as a `Time`, `json.Unmarshal` as a function,
  the zap build step as a function, the rest of the gin chain as a function.
-/

namespace Qlog

/-! ## Constants of `logger.go` -/

/-- The layout handed to `time.Format`. -/
def defaultLogTimeFormat : String := "2006-01-02 15:04:05"

/-- The size used when the configured `MaxSize` is zero. -/
def defaultLogMaxSize : Int := 1024

/-- The only encoding the built configuration ever carries. -/
def defaultLogFormat : String := "json"

/-! ## Go runtime values -/

/-- Run-time panics of the Go runtime that the embedded code can raise. -/
inductive GoPanic where
  | nilDereference
  deriving DecidableEq

/-- A `time.Time`: the wall-clock reading as `Year()`, `Month()`, ... return it
in the location of the time value, `Nanosecond` the part below one second, and
`Offset` the seconds east of UTC of that location at that moment (zero for
UTC). Two values with the same reading and different offsets are different
moments. -/
structure Time where
  Year : Int
  Month : Nat
  Day : Nat
  Hour : Nat
  Minute : Nat
  Second : Nat
  Nanosecond : Nat
  Offset : Int
  deriving DecidableEq

/-- What `os.Stat` reports about an existing path. -/
structure FileInfo where
  IsDir : Bool
  deriving DecidableEq

/-! ## Decimal rendering (`fmt` verb `%0Nd`, `time.appendInt`) -/

/-- The character of one decimal digit: `byte(48 + d)`. -/
def digitChar (d : Nat) : Char := Char.ofNat (48 + d)

/-- The digit loop of the Go formatters: the last digit is `u % 10`, the digits
before it are those of `u / 10`, until the value is below ten. The first
argument bounds the number of rounds. -/
def fmtUintAux : Nat → Nat → List Char
  | 0, u => [digitChar u]
  | fuel + 1, u =>
    if u < 10 then [digitChar u]
    else fmtUintAux fuel (u / 10) ++ [digitChar (u % 10)]

/-- Decimal digits of an unsigned value, most significant first. -/
def fmtUint (u : Nat) : List Char := fmtUintAux u u

/-- The verb `%0Nd` of `fmt.Sprintf`: zero padding up to `width` characters,
the minus sign of a negative value counting towards the width. -/
def fmtZeroD (width : Nat) (v : Int) : List Char :=
  let ds := fmtUint v.natAbs
  if v < 0 then '-' :: (List.replicate (width - 1 - ds.length) '0' ++ ds)
  else List.replicate (width - ds.length) '0' ++ ds

/-- The call
`fmt.Sprintf("/tmp/%04d%02d%02d%02d%02d%02d", now.Year(), now.Month(), now.Day(), now.Hour(), now.Minute(), now.Second())`. -/
def sprintfTmpName (now : Time) : String :=
  String.mk ("/tmp/".data ++ fmtZeroD 4 now.Year ++ fmtZeroD 2 now.Month ++ fmtZeroD 2 now.Day
    ++ fmtZeroD 2 now.Hour ++ fmtZeroD 2 now.Minute ++ fmtZeroD 2 now.Second)

/-! ## Configuration types -/

/-- The struct `LogFileConfig`. -/
structure LogFileConfig where
  Filename : String
  MaxSize : Int
  MaxDays : Int
  MaxBackups : Int
  deriving DecidableEq

/-- The struct `LogConfig`; `File` is a pointer and may be nil. -/
structure LogConfig where
  Level : String
  Encoding : String
  Format : String
  DisableTimestamp : Bool
  File : Option LogFileConfig
  Development : Bool
  DisableCaller : Bool
  DisableStacktrace : Bool
  DisableErrorVerbose : Bool
  deriving DecidableEq

/-- The rotation sink `lumberjack.Logger`, with the fields the code sets. -/
structure LumberjackLogger where
  Filename : String
  MaxSize : Int
  MaxBackups : Int
  MaxAge : Int
  LocalTime : Bool
  deriving DecidableEq

/-! ## File rotation options -/

/-- The guard `if st, err := os.Stat(name); err == nil { if st.IsDir() {...} }`:
true when the path exists and is a directory. -/
def statIsDir (stat : String → Option FileInfo) (name : String) : Bool :=
  match stat name with
  | some st => st.IsDir
  | none => false

/-- `InitFileConfig`: the configuration as left behind the pointer, and the
returned pair as an `Except` (the error leaves the sink nil). -/
def InitFileConfig (stat : String → Option FileInfo) (now : Time) (cfg : LogFileConfig) :
    LogFileConfig × Except String LumberjackLogger :=
  if statIsDir stat cfg.Filename then
    (cfg, .error "can't use directory as log file name")
  else
    let cfg1 := if cfg.MaxSize = 0 then { cfg with MaxSize := defaultLogMaxSize } else cfg
    let cfg2 := { cfg1 with Filename := sprintfTmpName now }
    (cfg2, .ok {
      Filename := cfg2.Filename
      MaxSize := cfg2.MaxSize
      MaxBackups := cfg2.MaxBackups
      MaxAge := cfg2.MaxDays
      LocalTime := true })

/-- `GetLumberJackOpts`: the body of the directory guard is a comment, so the
guard has no effect; a nil `cfg` panics at `cfg.Filename`. The result is the
configuration as left behind the pointer and the sink wrapped by
`zapcore.AddSync`. -/
def GetLumberJackOpts (stat : String → Option FileInfo) (now : Time) :
    Option LogFileConfig → Except GoPanic (LogFileConfig × LumberjackLogger)
  | none => .error .nilDereference
  | some cfg =>
    let _ : Bool := statIsDir stat cfg.Filename
    let cfg1 := if cfg.MaxSize = 0 then { cfg with MaxSize := defaultLogMaxSize } else cfg
    let cfg2 := { cfg1 with Filename := sprintfTmpName now }
    .ok (cfg2, {
      Filename := cfg2.Filename
      MaxSize := cfg2.MaxSize
      MaxBackups := cfg2.MaxBackups
      MaxAge := cfg2.MaxDays
      LocalTime := true })

/-! ## The zap configuration -/

/-- Severity levels of zap. -/
inductive Level where
  | Debug | Info | Warn | Error | DPanic | Panic | Fatal
  deriving DecidableEq

/-- A decoded JSON value, as `json.Unmarshal` stores it in an `interface{}`. -/
inductive JSONValue where
  | null
  | bool (b : Bool)
  | number (n : Int)
  | string (s : String)
  deriving DecidableEq

/-- A `map[string]interface{}`: `none` is the nil map, `some kv` a map holding
the bindings `kv`. -/
abbrev FieldMap := Option (List (String × JSONValue))

/-- The level encoders of zapcore. -/
inductive LevelEncoder where
  | LowercaseLevelEncoder | CapitalLevelEncoder
  deriving DecidableEq

/-- The duration encoders of zapcore. -/
inductive DurationEncoder where
  | SecondsDurationEncoder | NanosDurationEncoder | StringDurationEncoder
  deriving DecidableEq

/-- The caller encoders of zapcore. -/
inductive CallerEncoder where
  | FullCallerEncoder | ShortCallerEncoder
  deriving DecidableEq

/-- The struct `zapcore.EncoderConfig`, with the fields the code sets. A
`PrimitiveArrayEncoder` is the list of strings appended to it so far. -/
structure EncoderConfig where
  TimeKey : String
  LevelKey : String
  NameKey : String
  CallerKey : String
  MessageKey : String
  StacktraceKey : String
  LineEnding : String
  EncodeLevel : LevelEncoder
  EncodeTime : Time → List String → List String
  EncodeDuration : DurationEncoder
  EncodeCaller : CallerEncoder

/-- The struct `zap.Config`, with the fields the code sets. `Level` is the
threshold of the fresh atomic level. -/
structure ZapConfig where
  Level : Level
  Development : Bool
  DisableCaller : Bool
  DisableStacktrace : Bool
  Encoding : String
  EncoderConfig : EncoderConfig
  InitialFields : FieldMap
  OutputPaths : List String
  ErrorOutputPaths : List String

/-- `zap.NewAtomicLevel()`: an atomic level starts at info. -/
def NewAtomicLevel : Level := .Info

/-- `JSONToLogFormat`: `unmarshal s` is the outcome of
`json.Unmarshal([]byte(s), &fields)` on a fresh empty map, the bindings stored
or the error. The Go pair `(map, error)` is returned as it is. -/
def JSONToLogFormat (unmarshal : String → Except String (List (String × JSONValue)))
    (JSONStr : String) : FieldMap × Option String :=
  match unmarshal JSONStr with
  | .error err => (none, some err)
  | .ok fields => (some fields, none)

/-! ## `time.Format` and `time.Parse` for the layout of this program

The layout `defaultLogTimeFormat` is cut into chunks as `nextStdChunk` of the Go
`time` package cuts it. Only the chunks that occur in that layout are
recognised here: `2006`, `01`, `02`, `15`, `04`, `05`; every other character
is literal text. -/

/-- One chunk of a layout. -/
inductive Chunk where
  | lit (c : Char)
  | stdLongYear
  | stdZeroMonth
  | stdZeroDay
  | stdHour
  | stdZeroMinute
  | stdZeroSecond
  deriving DecidableEq

/-- The chunks of a layout, left to right. -/
def layoutChunks : List Char → List Chunk
  | [] => []
  | '2' :: '0' :: '0' :: '6' :: rest => .stdLongYear :: layoutChunks rest
  | '0' :: '1' :: rest => .stdZeroMonth :: layoutChunks rest
  | '0' :: '2' :: rest => .stdZeroDay :: layoutChunks rest
  | '1' :: '5' :: rest => .stdHour :: layoutChunks rest
  | '0' :: '4' :: rest => .stdZeroMinute :: layoutChunks rest
  | '0' :: '5' :: rest => .stdZeroSecond :: layoutChunks rest
  | c :: rest => .lit c :: layoutChunks rest

/-- `appendInt` of the `time` package: the sign, then the digits padded with
zeros to `width`. -/
def appendInt (b : List Char) (x : Int) (width : Nat) : List Char :=
  let ds := fmtUint x.natAbs
  (if x < 0 then b ++ ['-'] else b) ++ List.replicate (width - ds.length) '0' ++ ds

/-- What `AppendFormat` appends for one chunk. -/
def appendChunk (t : Time) (b : List Char) : Chunk → List Char
  | .lit c => b ++ [c]
  | .stdLongYear => appendInt b t.Year 4
  | .stdZeroMonth => appendInt b t.Month 2
  | .stdZeroDay => appendInt b t.Day 2
  | .stdHour => appendInt b t.Hour 2
  | .stdZeroMinute => appendInt b t.Minute 2
  | .stdZeroSecond => appendInt b t.Second 2

/-- `t.Format(layout)`. -/
def Time.Format (t : Time) (layout : String) : String :=
  String.mk ((layoutChunks layout.data).foldl (appendChunk t) [])

/-- `isDigit` of the `time` package. -/
def isDigit (c : Char) : Bool := decide ('0' ≤ c) && decide (c ≤ '9')

/-- The value of a digit character: `int(c - 48)`. -/
def digitVal (c : Char) : Nat := c.toNat - 48

/-- `getnum`: one or two leading digits; with `fixed` exactly two. -/
def getnum (s : List Char) (fixed : Bool) : Option (Nat × List Char) :=
  match s with
  | [] => none
  | [c0] => if isDigit c0 && !fixed then some (digitVal c0, []) else none
  | c0 :: c1 :: rest =>
    if !isDigit c0 then none
    else if !isDigit c1 then (if fixed then none else some (digitVal c0, c1 :: rest))
    else some (digitVal c0 * 10 + digitVal c1, rest)

/-- `isLeap` of the `time` package. -/
def isLeap (year : Int) : Bool := year % 4 == 0 && (year % 100 != 0 || year % 400 == 0)

/-- `daysIn` of the `time` package. -/
def daysIn (month : Nat) (year : Int) : Nat :=
  if month = 2 then (if isLeap year then 29 else 28)
  else if month = 4 ∨ month = 6 ∨ month = 9 ∨ month = 11 then 30
  else 31

/-- The variables of `time.Parse` while it walks the layout; `month` and `day`
start unset (`-1` in Go). -/
structure ParseState where
  value : List Char
  year : Int
  month : Option Nat
  day : Option Nat
  hour : Nat
  min : Nat
  sec : Nat
  deriving DecidableEq

/-- One chunk of `time.Parse`, `none` for a parse error. Literal text must be
matched character by character and the four characters of a year must all be
digits; the range checks are those of Go. (Go is more liberal on two points
that a string written by `Format` never exercises: a blank of the layout
matches any run of blanks, and a fraction may follow the seconds.) -/
def parseChunk (st : ParseState) : Chunk → Option ParseState
  | .lit c =>
    match st.value with
    | v :: rest => if v = c then some { st with value := rest } else none
    | [] => none
  | .stdLongYear =>
    match st.value with
    | c0 :: c1 :: c2 :: c3 :: rest =>
      if isDigit c0 && isDigit c1 && isDigit c2 && isDigit c3 then
        some { st with
          value := rest
          year := ((digitVal c0 * 1000 + digitVal c1 * 100 + digitVal c2 * 10 + digitVal c3 : Nat) : Int) }
      else none
    | _ => none
  | .stdZeroMonth =>
    match getnum st.value true with
    | some (m, rest) => if m = 0 ∨ 12 < m then none else some { st with value := rest, month := some m }
    | none => none
  | .stdZeroDay =>
    match getnum st.value true with
    | some (d, rest) => some { st with value := rest, day := some d }
    | none => none
  | .stdHour =>
    match getnum st.value false with
    | some (h, rest) => if 24 ≤ h then none else some { st with value := rest, hour := h }
    | none => none
  | .stdZeroMinute =>
    match getnum st.value true with
    | some (m, rest) => if 60 ≤ m then none else some { st with value := rest, min := m }
    | none => none
  | .stdZeroSecond =>
    match getnum st.value true with
    | some (s, rest) => if 60 ≤ s then none else some { st with value := rest, sec := s }
    | none => none

/-- The chunks of a layout parsed in turn. -/
def parseChunks : List Chunk → ParseState → Option ParseState
  | [], st => some st
  | c :: cs, st =>
    match parseChunk st c with
    | some st1 => parseChunks cs st1
    | none => none

/-- `time.Parse(layout, value)`: `none` for an error; left-over text and a day
outside its month are errors. The layout names no zone, so the result is the
parsed wall-clock reading as a time in UTC: `Offset` is zero. -/
def Parse (layout value : String) : Option Time :=
  match parseChunks (layoutChunks layout.data)
      { value := value.data, year := 0, month := none, day := none, hour := 0, min := 0, sec := 0 } with
  | none => none
  | some st =>
    if st.value ≠ [] then none
    else
      let month := st.month.getD 1
      let day := st.day.getD 1
      if day < 1 ∨ daysIn month st.year < day then none
      else some ⟨st.year, month, day, st.hour, st.min, st.sec, 0, 0⟩

/-- `t.Truncate(time.Second)`: the part below the second is dropped, the
location is kept (zone offsets are whole seconds). -/
def Time.truncateSecond (t : Time) : Time := { t with Nanosecond := 0 }

/-- Days from the first of January of year 1 to the first of January of
`year`, in the proleptic Gregorian calendar. -/
def daysBeforeYear (year : Int) : Int :=
  let y := year - 1
  365 * y + y / 4 - y / 100 + y / 400

/-- Days from the first of January to the first of `month` in `year`. -/
def daysBeforeMonth (month : Nat) (year : Int) : Nat :=
  (List.range (month - 1)).foldl (fun acc m => acc + daysIn (m + 1) year) 0

/-- `t.Unix()`: the seconds from 1970-01-01 00:00:00 UTC to the moment `t`
names, which is its wall-clock reading taken as UTC less its offset. Two time
values are the same moment (`Equal`) when they agree on it and on the part
below the second. -/
def Time.Unix (t : Time) : Int :=
  (daysBeforeYear t.Year + (daysBeforeMonth t.Month t.Year : Int) + ((t.Day : Int) - 1) - 719162)
      * 86400
    + (t.Hour : Int) * 3600 + (t.Minute : Int) * 60 + (t.Second : Int) - t.Offset

/-- The invariant of a `time.Time` with a four-digit year: the fields name a
day of the calendar and a time of that day. -/
def Time.Valid (t : Time) : Prop :=
  0 ≤ t.Year ∧ t.Year ≤ 9999 ∧ 1 ≤ t.Month ∧ t.Month ≤ 12 ∧ 1 ≤ t.Day ∧ t.Day ≤ daysIn t.Month t.Year ∧
    t.Hour < 24 ∧ t.Minute < 60 ∧ t.Second < 60 ∧ t.Nanosecond < 1000000000

instance (t : Time) : Decidable t.Valid := by
  unfold Time.Valid
  infer_instance

/-! ## Encoder and logger configuration -/

/-- `EchoTimeEncoder`: appends the formatted time to the array encoder. -/
def EchoTimeEncoder (t : Time) (enc : List String) : List String :=
  enc ++ [t.Format defaultLogTimeFormat]

/-- `InitEncoderConfig`. -/
def InitEncoderConfig : EncoderConfig :=
  { TimeKey := "time"
    LevelKey := "level"
    NameKey := "logger"
    CallerKey := "caller"
    MessageKey := "msg"
    StacktraceKey := "stacktrace"
    LineEnding := "\n"
    EncodeLevel := .LowercaseLevelEncoder
    EncodeTime := EchoTimeEncoder
    EncodeDuration := .SecondsDurationEncoder
    EncodeCaller := .FullCallerEncoder }

/-- `InitLoggerConfig`: the configuration as left behind the pointer (its
`File` is written by `InitFileConfig`) and the returned `zap.Config`. The error
of `InitFileConfig` is dropped, the printing of the sink is not modelled, and
`cfg.File.Filename` in the result panics on a nil `File`. -/
def InitLoggerConfig (unmarshal : String → Except String (List (String × JSONValue)))
    (stat : String → Option FileInfo) (now : Time) (cfg : LogConfig) :
    Except GoPanic (LogConfig × ZapConfig) :=
  let atom := NewAtomicLevel
  let fields : FieldMap :=
    if (cfg.Encoding.length ≤ 0 || cfg.Encoding == defaultLogFormat) && cfg.Format.length > 0 then
      (JSONToLogFormat unmarshal cfg.Format).1
    else some []
  let file : Option LogFileConfig :=
    match cfg.File with
    | some f => some (InitFileConfig stat now f).1
    | none => none
  match file with
  | none => .error .nilDereference
  | some f =>
    .ok ({ cfg with File := some f }, {
      Level := atom
      Development := cfg.Development
      DisableCaller := cfg.DisableCaller
      DisableStacktrace := cfg.DisableStacktrace
      Encoding := defaultLogFormat
      EncoderConfig := InitEncoderConfig
      InitialFields := fields
      OutputPaths := ["stdout", f.Filename]
      ErrorOutputPaths := [] })

/-- How a call that may end the process comes back. -/
inductive Exit (α : Type) where
  | returned (a : α)
  | fatal (args : List String)
  | panicked (p : GoPanic)

/-- `NewLogger`. `loaded` is what `GetLoggerConfig` returned (the configuration
and the error, nil when absent), `now1` and `now2` the two readings of the
clock, `build cfg sink` what `zapcfg.Build(zap.ErrorOutput(sink))` returns: the
pair of the logger (nil when absent) and the error (nil when absent).
`log.Fatal` ends the process. -/
def NewLogger {L : Type} (loaded : LogConfig × Option String)
    (unmarshal : String → Except String (List (String × JSONValue)))
    (stat : String → Option FileInfo) (now1 now2 : Time)
    (build : ZapConfig → LumberjackLogger → Option L × Option String) : Exit (Option L) :=
  match loaded.2 with
  | some err => .fatal ["Unable to load configuration, %v", err]
  | none =>
    match InitLoggerConfig unmarshal stat now1 loaded.1 with
    | .error p => .panicked p
    | .ok (cfg, zapcfg) =>
      match GetLumberJackOpts stat now2 cfg.File with
      | .error p => .panicked p
      | .ok (_, zapOutput) =>
        let (lg, _) := build zapcfg zapOutput
        .returned lg

/-! ## The gin middleware -/

/-- A structured field built by `zap.Int` or `zap.String`. -/
inductive Field where
  | Int (key : String) (val : Int)
  | String (key : String) (val : String)
  deriving DecidableEq

/-- One call on the process-wide logger: the level of the method called, the
message and the fields passed. -/
structure Entry where
  level : Level
  msg : String
  fields : List Field
  deriving DecidableEq

/-- One element of `c.Errors`; `Err` is the text `Error()` returns. -/
structure GinError where
  Err : String
  deriving DecidableEq

/-- The part `c.Request.URL` of a request. -/
structure URL where
  Path : String
  deriving DecidableEq

/-- The request of a context; `UserAgent` is what `UserAgent()` returns. -/
structure Request where
  Method : String
  URL : URL
  UserAgent : String
  deriving DecidableEq

/-- The response writer of a context; `Status` is what `Status()` returns. -/
structure ResponseWriter where
  Status : Int
  deriving DecidableEq

/-- The `gin.Context`, with what the handler reads; `ClientIP` is what
`ClientIP()` returns. -/
structure Context where
  Errors : List GinError
  Request : Request
  Writer : ResponseWriter
  ClientIP : String
  deriving DecidableEq

/-- The state a handler runs in: the context it is handed and the calls made
so far on the process-wide logger `QscLogger`, oldest first. -/
structure GinState where
  c : Context
  log : List Entry
  deriving DecidableEq

/-- `errorMsgs.Errors`: the texts of the accumulated errors, in order. -/
def errorMsgsErrors (a : List GinError) : List String := a.map (fun e => e.Err)

/-- `QscLogger.Error(msg, fields...)`. -/
def LoggerError (log : List Entry) (msg : String) (fields : List Field) : List Entry :=
  log ++ [{ level := .Error, msg := msg, fields := fields }]

/-- `QscLogger.Info(msg, fields...)`. -/
def LoggerInfo (log : List Entry) (msg : String) (fields : List Field) : List Entry :=
  log ++ [{ level := .Info, msg := msg, fields := fields }]

/-- The handler `LoggerWithGin` returns; `next` is `c.Next()`, the rest of the
handler chain run on the current state. -/
def LoggerWithGin (next : GinState → GinState) (s : GinState) : GinState :=
  let log1 :=
    if s.c.Errors.length > 0 then
      (errorMsgsErrors s.c.Errors).foldl (fun log e => LoggerError log e []) s.log
    else
      LoggerInfo s.log s.c.Request.URL.Path [
        .Int "status" s.c.Writer.Status,
        .String "method" s.c.Request.Method,
        .String "path" s.c.Request.URL.Path,
        .String "ip" s.c.ClientIP,
        .String "user-agent" s.c.Request.UserAgent]
  next { s with log := log1 }

/-! ## The behaviour the specification words for the middleware -/

/-- The entries the handler writes for a context: one error entry for each
accumulated error, or else the one info entry. -/
def requestEntries (c : Context) : List Entry :=
  if c.Errors.length > 0 then
    c.Errors.map (fun e => { level := .Error, msg := e.Err, fields := [] })
  else
    [{ level := .Info, msg := c.Request.URL.Path, fields := [
        .Int "status" c.Writer.Status,
        .String "method" c.Request.Method,
        .String "path" c.Request.URL.Path,
        .String "ip" c.ClientIP,
        .String "user-agent" c.Request.UserAgent] }]

/-- The hook as the specification words it, "invoked after the downstream
handler completes": the rest of the chain runs first and the entries are those
of the context it leaves. -/
def LoggerAfterNext (next : GinState → GinState) (s : GinState) : GinState :=
  let s1 := next s
  { s1 with log := s1.log ++ requestEntries s1.c }

/-! ## Sample inputs -/

/-- A clock reading: 2024-01-02 03:04:05 and a fraction of a second. -/
def sampleNow : Time := ⟨2024, 1, 2, 3, 4, 5, 123456789, 0⟩

/-- The same second as `sampleNow`, read at another fraction of it. -/
def sampleNowAgain : Time := ⟨2024, 1, 2, 3, 4, 5, 987654321, 0⟩

/-- The reading of `sampleNow` on a clock eight hours east of UTC. -/
def sampleEast : Time := ⟨2024, 1, 2, 3, 4, 5, 123456789, 28800⟩

/-- A clock reading one second on. -/
def sampleLater : Time := ⟨2024, 1, 2, 3, 4, 6, 0, 0⟩

/-- A file system without any of the paths asked for. -/
def emptyStat : String → Option FileInfo := fun _ => none

/-- A file system where `/var/log` is a directory and nothing else exists. -/
def dirStat : String → Option FileInfo :=
  fun name => if name = "/var/log" then some ⟨true⟩ else none

/-- A decoder that knows the one document `{"service":"x"}`. -/
def sampleUnmarshal : String → Except String (List (String × JSONValue)) :=
  fun s =>
    if s = "\x7b\"service\":\"x\"\x7d" then .ok [("service", .string "x")]
    else .error "invalid character"

/-- A rotation configuration with the size left at zero. -/
def sampleFileConfig : LogFileConfig :=
  { Filename := "app.log", MaxSize := 0, MaxDays := 7, MaxBackups := 3 }

/-- A rotation configuration whose file name is the one the clock reading
`sampleNow` generates. -/
def stampedFileConfig : LogFileConfig :=
  { Filename := "/tmp/20240102030405", MaxSize := 10, MaxDays := 7, MaxBackups := 3 }

/-- A rotation configuration whose file name is an existing directory of
`dirStat`. -/
def dirFileConfig : LogFileConfig :=
  { Filename := "/var/log", MaxSize := 10, MaxDays := 7, MaxBackups := 3 }

/-- A configuration with the encoding unset, a format blob and a rotation
section. -/
def sampleLogConfig : LogConfig :=
  { Level := "info", Encoding := "", Format := "\x7b\"service\":\"x\"\x7d",
    DisableTimestamp := false, File := some sampleFileConfig, Development := false,
    DisableCaller := false, DisableStacktrace := false, DisableErrorVerbose := false }

/-- The sample configuration without its rotation section. -/
def noFileLogConfig : LogConfig := { sampleLogConfig with File := none }

/-- The sample configuration with the directory as the rotation file. -/
def dirLogConfig : LogConfig := { sampleLogConfig with File := some dirFileConfig }

/-- A build step that fails: no logger and an error. -/
def failingBuild : ZapConfig → LumberjackLogger → Option Unit × Option String :=
  fun _ _ => (none, some "couldn't open sink")

/-- The request `GET /health` before any handler has answered: no error,
status 200. -/
def cleanContext : Context :=
  { Errors := [], Request := { Method := "GET", URL := { Path := "/health" }, UserAgent := "curl/8" },
    Writer := { Status := 200 }, ClientIP := "10.0.0.1" }

/-- A request context holding the one error "boom". -/
def boomContext : Context := { cleanContext with Errors := [{ Err := "boom" }] }

/-- A downstream handler that fails the request: it records the error "boom"
and answers 500, without logging. -/
def failingHandler : GinState → GinState :=
  fun s => { s with c := { s.c with Errors := s.c.Errors ++ [{ Err := "boom" }], Writer := { Status := 500 } } }

/-! ## Lemmas on decimal rendering -/

theorem fmtUintAux_lt_ten (fuel u : Nat) (h : u < 10) : fmtUintAux fuel u = [digitChar u] := by
  cases fuel with
  | zero => rfl
  | succ f => simp [fmtUintAux, h]

theorem fmtUintAux_step (fuel u : Nat) (h : 10 ≤ u) :
    fmtUintAux (fuel + 1) u = fmtUintAux fuel (u / 10) ++ [digitChar (u % 10)] := by
  simp [fmtUintAux, Nat.not_lt.mpr h]

theorem fmtUint_one_digit (u : Nat) (h : u < 10) : fmtUint u = [digitChar u] :=
  fmtUintAux_lt_ten u u h

theorem fmtUint_two_digits (u : Nat) (h1 : 10 ≤ u) (h2 : u < 100) :
    fmtUint u = [digitChar (u / 10), digitChar (u % 10)] := by
  obtain ⟨f, rfl⟩ : ∃ f, u = f + 1 := ⟨u - 1, by omega⟩
  unfold fmtUint
  rw [fmtUintAux_step _ _ h1, fmtUintAux_lt_ten _ _ (by omega)]
  rfl

theorem fmtUint_three_digits (u : Nat) (h1 : 100 ≤ u) (h2 : u < 1000) :
    fmtUint u = [digitChar (u / 100), digitChar (u / 10 % 10), digitChar (u % 10)] := by
  obtain ⟨f, rfl⟩ : ∃ f, u = f + 2 := ⟨u - 2, by omega⟩
  unfold fmtUint
  rw [fmtUintAux_step _ _ (by omega), fmtUintAux_step _ _ (by omega),
    fmtUintAux_lt_ten _ _ (by omega)]
  have e : (f + 2) / 10 / 10 = (f + 2) / 100 := by omega
  simp [e]

theorem fmtUint_four_digits (u : Nat) (h1 : 1000 ≤ u) (h2 : u < 10000) :
    fmtUint u = [digitChar (u / 1000), digitChar (u / 100 % 10), digitChar (u / 10 % 10),
      digitChar (u % 10)] := by
  obtain ⟨f, rfl⟩ : ∃ f, u = f + 3 := ⟨u - 3, by omega⟩
  unfold fmtUint
  rw [fmtUintAux_step _ _ (by omega), fmtUintAux_step _ _ (by omega),
    fmtUintAux_step _ _ (by omega), fmtUintAux_lt_ten _ _ (by omega)]
  have e1 : (f + 3) / 100 / 10 = (f + 3) / 1000 := by omega
  have e2 : (f + 3) / 10 / 10 = (f + 3) / 100 := by omega
  simp [e1, e2]

/-- A value below one hundred padded to two places. -/
theorem pad_two (u : Nat) (h : u < 100) :
    List.replicate (2 - (fmtUint u).length) '0' ++ fmtUint u
      = [digitChar (u / 10), digitChar (u % 10)] := by
  by_cases h1 : u < 10
  · rw [fmtUint_one_digit u h1]
    have e0 : u / 10 = 0 := by omega
    have e1 : u % 10 = u := by omega
    rw [e0, e1]
    rfl
  · rw [fmtUint_two_digits u (by omega) h]
    rfl

/-- A value below ten thousand padded to four places. -/
theorem pad_four (u : Nat) (h : u < 10000) :
    List.replicate (4 - (fmtUint u).length) '0' ++ fmtUint u
      = [digitChar (u / 1000), digitChar (u / 100 % 10), digitChar (u / 10 % 10),
        digitChar (u % 10)] := by
  by_cases h1 : u < 10
  · rw [fmtUint_one_digit u h1]
    have e0 : u / 1000 = 0 := by omega
    have e1 : u / 100 % 10 = 0 := by omega
    have e2 : u / 10 % 10 = 0 := by omega
    have e3 : u % 10 = u := by omega
    rw [e0, e1, e2, e3]
    rfl
  · by_cases h2 : u < 100
    · rw [fmtUint_two_digits u (by omega) h2]
      have e0 : u / 1000 = 0 := by omega
      have e1 : u / 100 % 10 = 0 := by omega
      have e2 : u / 10 % 10 = u / 10 := by omega
      rw [e0, e1, e2]
      rfl
    · by_cases h3 : u < 1000
      · rw [fmtUint_three_digits u (by omega) h3]
        have e0 : u / 1000 = 0 := by omega
        have e1 : u / 100 % 10 = u / 100 := by omega
        rw [e0, e1]
        rfl
      · rw [fmtUint_four_digits u (by omega) h]
        rfl

theorem isDigit_digitChar (d : Nat) (h : d < 10) : isDigit (digitChar d) = true := by
  interval_cases d <;> decide

theorem digitVal_digitChar (d : Nat) (h : d < 10) : digitVal (digitChar d) = d := by
  interval_cases d <;> decide

theorem fmtZeroD_two (n : Nat) (h : n < 100) :
    fmtZeroD 2 (n : Int) = [digitChar (n / 10), digitChar (n % 10)] := by
  have hneg : ¬ ((n : Int) < 0) := by omega
  simp only [fmtZeroD, hneg, if_false, Int.natAbs_ofNat]
  exact pad_two n h

theorem fmtZeroD_four (y : Int) (h0 : 0 ≤ y) (h1 : y ≤ 9999) :
    fmtZeroD 4 y = [digitChar (y.toNat / 1000), digitChar (y.toNat / 100 % 10),
      digitChar (y.toNat / 10 % 10), digitChar (y.toNat % 10)] := by
  have hneg : ¬ (y < 0) := by omega
  have habs : y.natAbs = y.toNat := by omega
  simp only [fmtZeroD, hneg, if_false, habs]
  exact pad_four y.toNat (by omega)

theorem appendInt_two (b : List Char) (n : Nat) (h : n < 100) :
    appendInt b (n : Int) 2 = b ++ [digitChar (n / 10), digitChar (n % 10)] := by
  have hneg : ¬ ((n : Int) < 0) := by omega
  simp only [appendInt, hneg, if_false, Int.natAbs_ofNat, List.append_assoc]
  rw [pad_two n h]

theorem appendInt_four (b : List Char) (y : Int) (h0 : 0 ≤ y) (h1 : y ≤ 9999) :
    appendInt b y 4 = b ++ [digitChar (y.toNat / 1000), digitChar (y.toNat / 100 % 10),
      digitChar (y.toNat / 10 % 10), digitChar (y.toNat % 10)] := by
  have hneg : ¬ (y < 0) := by omega
  have habs : y.natAbs = y.toNat := by omega
  simp only [appendInt, hneg, if_false, habs, List.append_assoc]
  rw [pad_four y.toNat (by omega)]

/-- The generated name of a clock reading with a four-digit year, character by
character. -/
theorem sprintfTmpName_digits (now : Time) (hv : now.Valid) :
    sprintfTmpName now = String.mk ['/', 't', 'm', 'p', '/',
      digitChar (now.Year.toNat / 1000), digitChar (now.Year.toNat / 100 % 10),
      digitChar (now.Year.toNat / 10 % 10), digitChar (now.Year.toNat % 10),
      digitChar (now.Month / 10), digitChar (now.Month % 10),
      digitChar (now.Day / 10), digitChar (now.Day % 10),
      digitChar (now.Hour / 10), digitChar (now.Hour % 10),
      digitChar (now.Minute / 10), digitChar (now.Minute % 10),
      digitChar (now.Second / 10), digitChar (now.Second % 10)] := by
  obtain ⟨hy0, hy1, _, hm, _, hd, hh, hmi, hs, _⟩ := hv
  have hd31 : daysIn now.Month now.Year ≤ 31 := by
    unfold daysIn
    split_ifs <;> omega
  unfold sprintfTmpName
  rw [fmtZeroD_four _ hy0 hy1, fmtZeroD_two _ (by omega), fmtZeroD_two _ (by omega),
    fmtZeroD_two _ (by omega), fmtZeroD_two _ (by omega), fmtZeroD_two _ (by omega)]
  rfl

/-! ## Lemmas on the time layout -/

theorem layoutChunks_default :
    layoutChunks defaultLogTimeFormat.data = [.stdLongYear, .lit '-', .stdZeroMonth, .lit '-',
      .stdZeroDay, .lit ' ', .stdHour, .lit ':', .stdZeroMinute, .lit ':', .stdZeroSecond] := by
  decide

theorem Format_default_digits (t : Time) (hv : t.Valid) :
    t.Format defaultLogTimeFormat = String.mk [
      digitChar (t.Year.toNat / 1000), digitChar (t.Year.toNat / 100 % 10),
      digitChar (t.Year.toNat / 10 % 10), digitChar (t.Year.toNat % 10), '-',
      digitChar (t.Month / 10), digitChar (t.Month % 10), '-',
      digitChar (t.Day / 10), digitChar (t.Day % 10), ' ',
      digitChar (t.Hour / 10), digitChar (t.Hour % 10), ':',
      digitChar (t.Minute / 10), digitChar (t.Minute % 10), ':',
      digitChar (t.Second / 10), digitChar (t.Second % 10)] := by
  obtain ⟨hy0, hy1, _, hm, _, hd, hh, hmi, hs, _⟩ := hv
  have hd31 : daysIn t.Month t.Year ≤ 31 := by
    unfold daysIn
    split_ifs <;> omega
  have e1 := fun b => appendInt_four b t.Year hy0 hy1
  have e2 := fun b => appendInt_two b t.Month (by omega)
  have e3 := fun b => appendInt_two b t.Day (by omega)
  have e4 := fun b => appendInt_two b t.Hour (by omega)
  have e5 := fun b => appendInt_two b t.Minute (by omega)
  have e6 := fun b => appendInt_two b t.Second (by omega)
  unfold Time.Format
  rw [layoutChunks_default]
  simp only [List.foldl, appendChunk, e1, e2, e3, e4, e5, e6]
  rfl

theorem Parse_default_digits (y1 y2 y3 y4 m1 m2 d1 d2 h1 h2 n1 n2 s1 s2 : Nat)
    (hy1 : y1 < 10) (hy2 : y2 < 10) (hy3 : y3 < 10) (hy4 : y4 < 10)
    (hm1 : m1 < 10) (hm2 : m2 < 10) (hd1 : d1 < 10) (hd2 : d2 < 10)
    (hh1 : h1 < 10) (hh2 : h2 < 10) (hn1 : n1 < 10) (hn2 : n2 < 10)
    (hs1 : s1 < 10) (hs2 : s2 < 10)
    (hm : 1 ≤ m1 * 10 + m2 ∧ m1 * 10 + m2 ≤ 12)
    (hd : 1 ≤ d1 * 10 + d2 ∧
      d1 * 10 + d2 ≤ daysIn (m1 * 10 + m2) ((y1 * 1000 + y2 * 100 + y3 * 10 + y4 : Nat) : Int))
    (hh : h1 * 10 + h2 < 24) (hn : n1 * 10 + n2 < 60) (hs : s1 * 10 + s2 < 60) :
    Parse defaultLogTimeFormat (String.mk [
      digitChar y1, digitChar y2, digitChar y3, digitChar y4, '-',
      digitChar m1, digitChar m2, '-', digitChar d1, digitChar d2, ' ',
      digitChar h1, digitChar h2, ':', digitChar n1, digitChar n2, ':',
      digitChar s1, digitChar s2])
    = some ⟨((y1 * 1000 + y2 * 100 + y3 * 10 + y4 : Nat) : Int), m1 * 10 + m2, d1 * 10 + d2,
        h1 * 10 + h2, n1 * 10 + n2, s1 * 10 + s2, 0, 0⟩ := by
  have c1 : ¬ (m1 * 10 + m2 = 0 ∨ 12 < m1 * 10 + m2) := by omega
  have c2 : ¬ (24 ≤ h1 * 10 + h2) := by omega
  have c3 : ¬ (60 ≤ n1 * 10 + n2) := by omega
  have c4 : ¬ (60 ≤ s1 * 10 + s2) := by omega
  have c5 : ¬ (d1 * 10 + d2 < 1 ∨
      daysIn (m1 * 10 + m2) ((y1 * 1000 + y2 * 100 + y3 * 10 + y4 : Nat) : Int) < d1 * 10 + d2) := by
    omega
  unfold Parse
  rw [layoutChunks_default]
  simp only [parseChunks, parseChunk, getnum, isDigit_digitChar, digitVal_digitChar, hy1, hy2, hy3,
    hy4, hm1, hm2, hd1, hd2, hh1, hh2, hn1, hn2, hs1, hs2, Bool.and_self, Bool.not_true,
    if_true, if_false, c1, c2, c3, c4, Bool.false_eq_true, Option.getD_some]
  rw [if_neg (by simp), if_neg c5]

/-! ## Lemmas on the code -/

theorem foldl_LoggerError (es : List String) (log : List Entry) :
    es.foldl (fun log e => LoggerError log e []) log
      = log ++ es.map (fun e => { level := .Error, msg := e, fields := [] }) := by
  induction es generalizing log with
  | nil => simp
  | cons e es ih =>
    simp only [List.foldl, List.map]
    rw [ih]
    simp [LoggerError]

theorem InitFileConfig_not_dir (stat : String → Option FileInfo) (now : Time) (cfg : LogFileConfig)
    (h : statIsDir stat cfg.Filename = false) :
    InitFileConfig stat now cfg =
      ({ Filename := sprintfTmpName now
         MaxSize := if cfg.MaxSize = 0 then defaultLogMaxSize else cfg.MaxSize
         MaxDays := cfg.MaxDays
         MaxBackups := cfg.MaxBackups },
       .ok { Filename := sprintfTmpName now
             MaxSize := if cfg.MaxSize = 0 then defaultLogMaxSize else cfg.MaxSize
             MaxBackups := cfg.MaxBackups
             MaxAge := cfg.MaxDays
             LocalTime := true }) := by
  unfold InitFileConfig
  rw [h]
  by_cases hz : cfg.MaxSize = 0 <;> simp [hz]

theorem InitFileConfig_dir (stat : String → Option FileInfo) (now : Time) (cfg : LogFileConfig)
    (h : statIsDir stat cfg.Filename = true) :
    InitFileConfig stat now cfg = (cfg, .error "can't use directory as log file name") := by
  unfold InitFileConfig
  rw [h]
  rfl

theorem GetLumberJackOpts_some (stat : String → Option FileInfo) (now : Time) (cfg : LogFileConfig) :
    GetLumberJackOpts stat now (some cfg) =
      .ok ({ Filename := sprintfTmpName now
             MaxSize := if cfg.MaxSize = 0 then defaultLogMaxSize else cfg.MaxSize
             MaxDays := cfg.MaxDays
             MaxBackups := cfg.MaxBackups },
           { Filename := sprintfTmpName now
             MaxSize := if cfg.MaxSize = 0 then defaultLogMaxSize else cfg.MaxSize
             MaxBackups := cfg.MaxBackups
             MaxAge := cfg.MaxDays
             LocalTime := true }) := by
  unfold GetLumberJackOpts
  by_cases hz : cfg.MaxSize = 0 <;> simp [hz]

theorem length_pos_iff_ne_empty (s : String) : s.length > 0 ↔ s ≠ "" := by
  cases s with
  | mk l => cases l <;> simp [String.length, String.ext_iff]

theorem length_le_zero_iff_empty (s : String) : s.length ≤ 0 ↔ s = "" := by
  cases s with
  | mk l => cases l <;> simp [String.length, String.ext_iff]

theorem InitLoggerConfig_some (unmarshal : String → Except String (List (String × JSONValue)))
    (stat : String → Option FileInfo) (now : Time) (cfg : LogConfig) (f : LogFileConfig)
    (hf : cfg.File = some f) :
    InitLoggerConfig unmarshal stat now cfg =
      .ok ({ cfg with File := some (InitFileConfig stat now f).1 }, {
        Level := NewAtomicLevel
        Development := cfg.Development
        DisableCaller := cfg.DisableCaller
        DisableStacktrace := cfg.DisableStacktrace
        Encoding := defaultLogFormat
        EncoderConfig := InitEncoderConfig
        InitialFields :=
          if (cfg.Encoding.length ≤ 0 || cfg.Encoding == defaultLogFormat) && cfg.Format.length > 0 then
            (JSONToLogFormat unmarshal cfg.Format).1
          else some []
        OutputPaths := ["stdout", (InitFileConfig stat now f).1.Filename]
        ErrorOutputPaths := [] }) := by
  simp [InitLoggerConfig, hf]

/-! ## Properties of the specification -/

/-- C1 (defect of the code): for a `LogConfig` whose `File` is nil,
`InitLoggerConfig` does not return a configuration with `OutputPaths`
`["stdout"]`: it panics on `cfg.File.Filename`, and so does `NewLogger` when
the loaded configuration has no rotation section, whatever the other inputs. -/
theorem InitLoggerConfig_nil_File_panics
    (unmarshal : String → Except String (List (String × JSONValue)))
    (stat : String → Option FileInfo) (now1 now2 : Time) (cfg : LogConfig)
    (build : ZapConfig → LumberjackLogger → Option Unit × Option String) :
    InitLoggerConfig unmarshal stat now1 { cfg with File := none }
      = .error GoPanic.nilDereference ∧
    NewLogger ({ cfg with File := none }, none) unmarshal stat now1 now2 build
      = .panicked GoPanic.nilDereference ∧
    InitLoggerConfig sampleUnmarshal emptyStat sampleNow noFileLogConfig
      = .error GoPanic.nilDereference := by
  refine ⟨?_, ?_, rfl⟩
  · simp [InitLoggerConfig]
  · simp [NewLogger, InitLoggerConfig]

/-- C2 (defect of the code): when the configuration loads and the build step
fails, returning no logger and an error, `NewLogger` drops the error and
returns normally with the nil handle; the process is not terminated. -/
theorem NewLogger_returns_nil_on_build_error
    (unmarshal : String → Except String (List (String × JSONValue)))
    (stat : String → Option FileInfo) (now1 now2 : Time) (cfg : LogConfig) (f : LogFileConfig)
    (err : String) :
    NewLogger ({ cfg with File := some f }, none) unmarshal stat now1 now2
        (fun _ _ => ((none : Option Unit), some err)) = .returned none ∧
    NewLogger (sampleLogConfig, none) sampleUnmarshal emptyStat sampleNow sampleLater failingBuild
      = .returned none := by
  constructor
  · simp [NewLogger, InitLoggerConfig, GetLumberJackOpts]
  · simp [NewLogger, InitLoggerConfig, GetLumberJackOpts, sampleLogConfig, failingBuild]

/-- C3: for a request context with `n ≥ 1` accumulated errors, the handler
hands the rest of the chain the same context and a log grown by exactly `n`
entries: the `i`-th is at error level, its message is the text of the `i`-th
error and it has no field; none of them is at info level. -/
theorem LoggerWithGin_errors (next : GinState → GinState) (s : GinState) (n : Nat)
    (hn : 1 ≤ n) (hlen : s.c.Errors.length = n) :
    ∃ own : List Entry,
      LoggerWithGin next s = next { c := s.c, log := s.log ++ own } ∧
      own.length = n ∧
      (∀ i (hi : i < s.c.Errors.length), own[i]? =
        some { level := .Error, msg := (s.c.Errors.get ⟨i, hi⟩).Err, fields := [] }) ∧
      (∀ e ∈ own, e.level = .Error ∧ e.fields = []) ∧
      (∀ e ∈ own, e.level ≠ .Info) := by
  refine ⟨s.c.Errors.map (fun e => { level := .Error, msg := e.Err, fields := [] }), ?_, ?_, ?_, ?_, ?_⟩
  · have hpos : s.c.Errors.length > 0 := by omega
    simp only [LoggerWithGin, hpos, if_true, foldl_LoggerError, errorMsgsErrors, List.map_map]
    rfl
  · simp [hlen]
  · intro i hi
    simp [List.getElem?_map, List.getElem?_eq_getElem hi]
  · intro e he
    simp only [List.mem_map] at he
    obtain ⟨x, _, rfl⟩ := he
    exact ⟨rfl, rfl⟩
  · intro e he
    simp only [List.mem_map] at he
    obtain ⟨x, _, rfl⟩ := he
    simp

/-- C3 at a concrete input: the context holding the one error "boom" yields
the one error entry "boom" without fields. -/
theorem LoggerWithGin_errors_witness :
    (1 ≤ 1 ∧ boomContext.Errors.length = 1) ∧
    (∃ own : List Entry,
      LoggerWithGin id ⟨boomContext, []⟩ = id { c := boomContext, log := [] ++ own } ∧
      own.length = 1 ∧
      (∀ i (hi : i < boomContext.Errors.length), own[i]? =
        some { level := .Error, msg := (boomContext.Errors.get ⟨i, hi⟩).Err, fields := [] }) ∧
      (∀ e ∈ own, e.level = .Error ∧ e.fields = []) ∧
      (∀ e ∈ own, e.level ≠ .Info)) ∧
    (LoggerWithGin id ⟨boomContext, []⟩).log = [{ level := .Error, msg := "boom", fields := [] }] :=
  ⟨⟨by decide, by decide⟩,
    LoggerWithGin_errors id ⟨boomContext, []⟩ 1 (by decide) (by decide), by decide⟩

/-- C4: for a request context without accumulated errors, the handler hands
the rest of the chain the same context and a log grown by exactly one entry,
at info level, whose fields are exactly status, method, path, ip and
user-agent with the values of the context; no entry at error level is
written. -/
theorem LoggerWithGin_clean (next : GinState → GinState) (s : GinState)
    (h : s.c.Errors.length = 0) :
    LoggerWithGin next s = next { c := s.c, log := s.log ++ [
      { level := .Info, msg := s.c.Request.URL.Path, fields := [
          .Int "status" s.c.Writer.Status,
          .String "method" s.c.Request.Method,
          .String "path" s.c.Request.URL.Path,
          .String "ip" s.c.ClientIP,
          .String "user-agent" s.c.Request.UserAgent] }] } := by
  simp [LoggerWithGin, h, LoggerInfo]

/-- C4 at a concrete input: `GET /health` answered 200 yields the one info
entry with the five fields. -/
theorem LoggerWithGin_clean_witness :
    cleanContext.Errors.length = 0 ∧
    LoggerWithGin id ⟨cleanContext, []⟩ = ⟨cleanContext, [
      { level := .Info, msg := "/health", fields := [
          .Int "status" 200,
          .String "method" "GET",
          .String "path" "/health",
          .String "ip" "10.0.0.1",
          .String "user-agent" "curl/8"] }]⟩ :=
  ⟨by decide, LoggerWithGin_clean id ⟨cleanContext, []⟩ (by decide)⟩

/-- C5 (defect of the code): the handler logs before it calls `c.Next()`. On a
clean request whose downstream handler records the error "boom" and answers
500, it writes the info entry with status 200 of the context it was handed,
where logging after the downstream handler would write the error entry
"boom". In general the entries are computed from the state before `next`. -/
theorem LoggerWithGin_logs_before_next :
    (LoggerWithGin failingHandler ⟨cleanContext, []⟩).log = [
      { level := .Info, msg := "/health", fields := [
          .Int "status" 200,
          .String "method" "GET",
          .String "path" "/health",
          .String "ip" "10.0.0.1",
          .String "user-agent" "curl/8"] }] ∧
    (LoggerWithGin failingHandler ⟨cleanContext, []⟩).c.Writer.Status = 500 ∧
    (LoggerWithGin failingHandler ⟨cleanContext, []⟩).c.Errors = [{ Err := "boom" }] ∧
    (LoggerAfterNext failingHandler ⟨cleanContext, []⟩).log =
      [{ level := .Error, msg := "boom", fields := [] }] ∧
    LoggerWithGin failingHandler ⟨cleanContext, []⟩
      ≠ LoggerAfterNext failingHandler ⟨cleanContext, []⟩ := by
  decide

/-- C7: `GetLumberJackOpts` always, and `InitFileConfig` whenever it returns a
sink (which it does unless the configured name is an existing directory),
leave in the configuration and put in the sink a `MaxSize` equal to the
configured one when that is not zero and to 1024 when it is zero. -/
theorem MaxSize_resolved (stat : String → Option FileInfo) (now : Time) (cfg : LogFileConfig) :
    (∀ sink, (InitFileConfig stat now cfg).2 = .ok sink →
      (InitFileConfig stat now cfg).1.MaxSize = (if cfg.MaxSize = 0 then 1024 else cfg.MaxSize) ∧
      sink.MaxSize = (if cfg.MaxSize = 0 then 1024 else cfg.MaxSize)) ∧
    (statIsDir stat cfg.Filename = false → ∃ sink, (InitFileConfig stat now cfg).2 = .ok sink) ∧
    (∃ c s, GetLumberJackOpts stat now (some cfg) = .ok (c, s) ∧
      c.MaxSize = (if cfg.MaxSize = 0 then 1024 else cfg.MaxSize) ∧
      s.MaxSize = (if cfg.MaxSize = 0 then 1024 else cfg.MaxSize)) := by
  refine ⟨?_, ?_, ⟨_, _, GetLumberJackOpts_some stat now cfg, rfl, rfl⟩⟩
  · intro sink hok
    cases hd : statIsDir stat cfg.Filename with
    | true => rw [InitFileConfig_dir stat now cfg hd] at hok; cases hok
    | false =>
      rw [InitFileConfig_not_dir stat now cfg hd] at hok ⊢
      simp only [Except.ok.injEq] at hok
      subst hok
      exact ⟨rfl, rfl⟩
  · intro hd
    rw [InitFileConfig_not_dir stat now cfg hd]
    exact ⟨_, rfl⟩

/-- C7 at concrete inputs: a configured size of zero resolves to 1024 and a
configured size of ten stays ten. -/
theorem MaxSize_resolved_witness :
    (InitFileConfig emptyStat sampleNow sampleFileConfig).2 = .ok
        { Filename := "/tmp/20240102030405", MaxSize := 1024, MaxBackups := 3, MaxAge := 7,
          LocalTime := true } ∧
    (InitFileConfig emptyStat sampleNow sampleFileConfig).1.MaxSize = 1024 ∧
    (InitFileConfig emptyStat sampleNow stampedFileConfig).1.MaxSize = 10 ∧
    (GetLumberJackOpts emptyStat sampleNow (some sampleFileConfig)).toOption.map
      (fun r => (r.1.MaxSize, r.2.MaxSize)) = some (1024, 1024) ∧
    (GetLumberJackOpts emptyStat sampleNow (some stampedFileConfig)).toOption.map
      (fun r => (r.1.MaxSize, r.2.MaxSize)) = some (10, 10) :=
  ⟨rfl,
    ((MaxSize_resolved emptyStat sampleNow sampleFileConfig).1
      { Filename := "/tmp/20240102030405", MaxSize := 1024, MaxBackups := 3, MaxAge := 7,
        LocalTime := true } rfl).1.trans (by decide),
    by decide, by decide, by decide⟩

/-- C8: with a rotation section present, `InitLoggerConfig` returns a
configuration whose `InitialFields` are the bindings decoded from `Format`
when `Encoding` is empty or "json", `Format` is not empty and decoding
succeeds, and are the empty map when `Encoding` has another value or `Format`
is empty. -/
theorem InitialFields_from_format (unmarshal : String → Except String (List (String × JSONValue)))
    (stat : String → Option FileInfo) (now : Time) (cfg : LogConfig) (f : LogFileConfig)
    (hf : cfg.File = some f) :
    ∃ c z, InitLoggerConfig unmarshal stat now cfg = .ok (c, z) ∧
      (∀ kv, (cfg.Encoding = "" ∨ cfg.Encoding = "json") → cfg.Format ≠ "" →
        unmarshal cfg.Format = .ok kv → z.InitialFields = some kv) ∧
      ((¬ (cfg.Encoding = "" ∨ cfg.Encoding = "json") ∨ cfg.Format = "") →
        z.InitialFields = some []) := by
  refine ⟨_, _, InitLoggerConfig_some unmarshal stat now cfg f hf, ?_, ?_⟩
  · intro kv henc hfmt hkv
    have h1 : (cfg.Encoding.length ≤ 0 || cfg.Encoding == defaultLogFormat) = true := by
      rcases henc with h | h
      · simp [h]
      · simp [h, defaultLogFormat]
    have h2 : cfg.Format.length > 0 := (length_pos_iff_ne_empty _).mpr hfmt
    have hc : ((cfg.Encoding.length ≤ 0 || cfg.Encoding == defaultLogFormat)
        && decide (cfg.Format.length > 0)) = true := by
      rw [h1]
      simp [h2]
    show (if ((cfg.Encoding.length ≤ 0 || cfg.Encoding == defaultLogFormat)
        && decide (cfg.Format.length > 0)) = true then (JSONToLogFormat unmarshal cfg.Format).1
        else some []) = some kv
    rw [if_pos hc]
    simp [JSONToLogFormat, hkv]
  · intro h
    have hc : ((cfg.Encoding.length ≤ 0 || cfg.Encoding == defaultLogFormat)
        && decide (cfg.Format.length > 0)) = false := by
      rcases h with h | h
      · have h1 : ¬ cfg.Encoding.length ≤ 0 := fun hh =>
          h (Or.inl ((length_le_zero_iff_empty _).mp hh))
        have h2 : ¬ cfg.Encoding = defaultLogFormat := fun hh => h (Or.inr hh)
        simp [h1, h2]
      · simp [h]
    show (if ((cfg.Encoding.length ≤ 0 || cfg.Encoding == defaultLogFormat)
        && decide (cfg.Format.length > 0)) = true then (JSONToLogFormat unmarshal cfg.Format).1
        else some []) = some []
    rw [if_neg (by rw [hc]; decide)]

/-- C8 at a concrete input: the format blob `{"service":"x"}` with the encoding
unset gives the initial field `service = "x"`. -/
theorem InitialFields_from_format_witness :
    sampleLogConfig.File = some sampleFileConfig ∧
    (∃ c z, InitLoggerConfig sampleUnmarshal emptyStat sampleNow sampleLogConfig = .ok (c, z) ∧
      (∀ kv, (sampleLogConfig.Encoding = "" ∨ sampleLogConfig.Encoding = "json") →
        sampleLogConfig.Format ≠ "" →
        sampleUnmarshal sampleLogConfig.Format = .ok kv → z.InitialFields = some kv) ∧
      ((¬ (sampleLogConfig.Encoding = "" ∨ sampleLogConfig.Encoding = "json") ∨
          sampleLogConfig.Format = "") → z.InitialFields = some [])) ∧
    (InitLoggerConfig sampleUnmarshal emptyStat sampleNow sampleLogConfig).toOption.map
      (fun r => r.2.InitialFields) = some (some [("service", .string "x")]) :=
  ⟨rfl, InitialFields_from_format sampleUnmarshal emptyStat sampleNow sampleLogConfig
    sampleFileConfig rfl, by decide⟩

/-- C10 as stated fails: when the configured file name is an existing
directory, the returned `OutputPaths` are "stdout" and the configured name,
not the name generated from the clock. -/
theorem OutputPaths_keep_directory_name :
    (InitLoggerConfig sampleUnmarshal dirStat sampleNow dirLogConfig).toOption.map
        (fun r => r.2.OutputPaths) = some ["stdout", "/var/log"] ∧
    sprintfTmpName sampleNow = "/tmp/20240102030405" ∧
    (InitLoggerConfig sampleUnmarshal dirStat sampleNow dirLogConfig).toOption.map
        (fun r => r.2.OutputPaths) ≠ some ["stdout", sprintfTmpName sampleNow] := by
  decide

/-- C10 amended: with a rotation section present whose configured file name is
not an existing directory, `InitLoggerConfig` returns a configuration whose
`OutputPaths` are exactly "stdout" and the name generated from the clock, and
whose `ErrorOutputPaths` are empty; the configured name is replaced by the
generated one. -/
theorem OutputPaths_stdout_and_generated (unmarshal : String → Except String (List (String × JSONValue)))
    (stat : String → Option FileInfo) (now : Time) (cfg : LogConfig) (f : LogFileConfig)
    (hf : cfg.File = some f) (hd : statIsDir stat f.Filename = false) :
    ∃ c z, InitLoggerConfig unmarshal stat now cfg = .ok (c, z) ∧
      z.OutputPaths = ["stdout", sprintfTmpName now] ∧
      z.ErrorOutputPaths = [] ∧
      c.File.map (fun g => g.Filename) = some (sprintfTmpName now) := by
  refine ⟨_, _, InitLoggerConfig_some unmarshal stat now cfg f hf, ?_, rfl, ?_⟩
  · rw [InitFileConfig_not_dir stat now f hd]
  · rw [InitFileConfig_not_dir stat now f hd]
    rfl

/-- C10 amended, at a concrete input: the configured name `app.log` is
replaced by `/tmp/20240102030405`. -/
theorem OutputPaths_stdout_and_generated_witness :
    (sampleLogConfig.File = some sampleFileConfig ∧
      statIsDir emptyStat sampleFileConfig.Filename = false) ∧
    (∃ c z, InitLoggerConfig sampleUnmarshal emptyStat sampleNow sampleLogConfig = .ok (c, z) ∧
      z.OutputPaths = ["stdout", sprintfTmpName sampleNow] ∧
      z.ErrorOutputPaths = [] ∧
      c.File.map (fun g => g.Filename) = some (sprintfTmpName sampleNow)) ∧
    (InitLoggerConfig sampleUnmarshal emptyStat sampleNow sampleLogConfig).toOption.map
      (fun r => r.2.OutputPaths) = some ["stdout", "/tmp/20240102030405"] :=
  ⟨⟨rfl, rfl⟩, OutputPaths_stdout_and_generated sampleUnmarshal emptyStat sampleNow
    sampleLogConfig sampleFileConfig rfl rfl, by decide⟩

/-- C6 as stated fails: when the configured file name is already the path the
clock reading generates, the name `GetLumberJackOpts` and `InitFileConfig`
store equals the originally configured one. -/
theorem rotation_filename_equals_configured :
    stampedFileConfig.Filename = "/tmp/20240102030405" ∧
    (GetLumberJackOpts emptyStat sampleNow (some stampedFileConfig)).toOption.map
        (fun r => (r.1.Filename, r.2.Filename))
      = some (stampedFileConfig.Filename, stampedFileConfig.Filename) ∧
    (InitFileConfig emptyStat sampleNow stampedFileConfig).1.Filename
      = stampedFileConfig.Filename ∧
    (InitFileConfig emptyStat sampleNow stampedFileConfig).2.toOption.map (fun r => r.Filename)
      = some stampedFileConfig.Filename := by
  decide

/-- C6 amended: the file name that `GetLumberJackOpts` always, and
`InitFileConfig` whenever it returns a sink, store in the configuration and in
the sink is "/tmp/" followed by the year, month, day, hour, minute and second
of the clock reading, zero-padded to 4, 2, 2, 2, 2 and 2 places (fourteen
digits for a four-digit year). It is the same for any configuration, any file
system and any clock reading of the same second, and so differs from the
configured name whenever that is not already the generated path. -/
theorem rotation_filename_from_clock (stat : String → Option FileInfo) (now : Time)
    (cfg : LogFileConfig) :
    (∃ c s, GetLumberJackOpts stat now (some cfg) = .ok (c, s) ∧
      c.Filename = sprintfTmpName now ∧ s.Filename = sprintfTmpName now ∧
      (cfg.Filename ≠ sprintfTmpName now → c.Filename ≠ cfg.Filename)) ∧
    (∀ s, (InitFileConfig stat now cfg).2 = .ok s →
      (InitFileConfig stat now cfg).1.Filename = sprintfTmpName now ∧
      s.Filename = sprintfTmpName now ∧
      (cfg.Filename ≠ sprintfTmpName now → s.Filename ≠ cfg.Filename)) ∧
    sprintfTmpName now = String.mk ("/tmp/".data ++ fmtZeroD 4 now.Year ++ fmtZeroD 2 now.Month
      ++ fmtZeroD 2 now.Day ++ fmtZeroD 2 now.Hour ++ fmtZeroD 2 now.Minute
      ++ fmtZeroD 2 now.Second) ∧
    (now.Valid → sprintfTmpName now = String.mk ['/', 't', 'm', 'p', '/',
      digitChar (now.Year.toNat / 1000), digitChar (now.Year.toNat / 100 % 10),
      digitChar (now.Year.toNat / 10 % 10), digitChar (now.Year.toNat % 10),
      digitChar (now.Month / 10), digitChar (now.Month % 10),
      digitChar (now.Day / 10), digitChar (now.Day % 10),
      digitChar (now.Hour / 10), digitChar (now.Hour % 10),
      digitChar (now.Minute / 10), digitChar (now.Minute % 10),
      digitChar (now.Second / 10), digitChar (now.Second % 10)]) ∧
    (∀ now2 : Time, (now2.Year = now.Year ∧ now2.Month = now.Month ∧ now2.Day = now.Day ∧
        now2.Hour = now.Hour ∧ now2.Minute = now.Minute ∧ now2.Second = now.Second) →
      sprintfTmpName now2 = sprintfTmpName now) := by
  refine ⟨⟨_, _, GetLumberJackOpts_some stat now cfg, rfl, rfl, fun h => Ne.symm h⟩, ?_, rfl,
    sprintfTmpName_digits now, ?_⟩
  · intro s hok
    cases hd : statIsDir stat cfg.Filename with
    | true => rw [InitFileConfig_dir stat now cfg hd] at hok; cases hok
    | false =>
      rw [InitFileConfig_not_dir stat now cfg hd] at hok ⊢
      simp only [Except.ok.injEq] at hok
      subst hok
      exact ⟨rfl, rfl, fun h => Ne.symm h⟩
  · intro now2 hsec
    obtain ⟨hy, hm, hd, hh, hmi, hs⟩ := hsec
    simp only [sprintfTmpName, hy, hm, hd, hh, hmi, hs]

/-- C6 amended, at a concrete input: at 2024-01-02 03:04:05 the configured name
`app.log` is replaced by `/tmp/20240102030405`, at any fraction of that
second. -/
theorem rotation_filename_from_clock_witness :
    sampleNow.Valid ∧
    sampleNowAgain.truncateSecond = sampleNow.truncateSecond ∧
    sampleNowAgain ≠ sampleNow ∧
    sprintfTmpName sampleNow = "/tmp/20240102030405" ∧
    sprintfTmpName sampleNowAgain = sprintfTmpName sampleNow ∧
    (GetLumberJackOpts emptyStat sampleNow (some sampleFileConfig)).toOption.map
      (fun r => (r.1.Filename, r.2.Filename))
      = some ("/tmp/20240102030405", "/tmp/20240102030405") :=
  ⟨by decide, by decide, by decide,
    ((rotation_filename_from_clock emptyStat sampleNow sampleFileConfig).2.2.2.1
      (by decide)).trans (by decide),
    (rotation_filename_from_clock emptyStat sampleNow sampleFileConfig).2.2.2.2
      sampleNowAgain (by decide),
    by decide⟩

/-- C9 as stated fails: for a time value eight hours east of UTC the string
appended is "2024-01-02 03:04:05", and parsing it with the same layout gives
that reading in UTC, which is not the time truncated to the second: the zone
differs and the moment is 28800 seconds later. -/
theorem EchoTimeEncoder_roundtrip_fails_east_of_UTC :
    sampleEast.Valid ∧
    EchoTimeEncoder sampleEast [] = ["2024-01-02 03:04:05"] ∧
    Parse defaultLogTimeFormat "2024-01-02 03:04:05" = some ⟨2024, 1, 2, 3, 4, 5, 0, 0⟩ ∧
    sampleEast.truncateSecond = ⟨2024, 1, 2, 3, 4, 5, 0, 28800⟩ ∧
    Parse defaultLogTimeFormat "2024-01-02 03:04:05" ≠ some sampleEast.truncateSecond ∧
    (⟨2024, 1, 2, 3, 4, 5, 0, 0⟩ : Time).Unix = 1704164645 ∧
    sampleEast.truncateSecond.Unix = 1704135845 := by
  decide

/-- C9 amended: for a time value with a year from 0 to 9999, `EchoTimeEncoder`
(the `EncodeTime` of `InitEncoderConfig`) appends one string of the form
`YYYY-MM-DD HH:MM:SS`: nineteen characters, the fields zero-padded decimal
digits, nothing below the second and no zone. Parsing it with the same layout
gives the wall-clock reading of the time, truncated to the second, as a time in
UTC; that is the time truncated to the second exactly when its zone offset is
zero, and in general the moment that many seconds later. -/
theorem EchoTimeEncoder_format_roundtrip (t : Time) (enc : List String) (hv : t.Valid) :
    ∃ s : String,
      InitEncoderConfig.EncodeTime t enc = enc ++ [s] ∧
      EchoTimeEncoder t enc = enc ++ [s] ∧
      s = String.mk [
        digitChar (t.Year.toNat / 1000), digitChar (t.Year.toNat / 100 % 10),
        digitChar (t.Year.toNat / 10 % 10), digitChar (t.Year.toNat % 10), '-',
        digitChar (t.Month / 10), digitChar (t.Month % 10), '-',
        digitChar (t.Day / 10), digitChar (t.Day % 10), ' ',
        digitChar (t.Hour / 10), digitChar (t.Hour % 10), ':',
        digitChar (t.Minute / 10), digitChar (t.Minute % 10), ':',
        digitChar (t.Second / 10), digitChar (t.Second % 10)] ∧
      s.length = 19 ∧
      Parse defaultLogTimeFormat s = some { t.truncateSecond with Offset := 0 } ∧
      (Parse defaultLogTimeFormat s = some t.truncateSecond ↔ t.Offset = 0) ∧
      (∀ p, Parse defaultLogTimeFormat s = some p →
        p.Unix = t.truncateSecond.Unix + t.Offset ∧ p.Nanosecond = 0) := by
  have hfmt := Format_default_digits t hv
  have hparse : Parse defaultLogTimeFormat (t.Format defaultLogTimeFormat)
      = some { t.truncateSecond with Offset := 0 } := by
    obtain ⟨hy0, hy1, hm0, hm, hd0, hd, hh, hmi, hs, _⟩ := hv
    have hd31 : daysIn t.Month t.Year ≤ 31 := by
      unfold daysIn
      split_ifs <;> omega
    have ey : t.Year.toNat / 1000 * 1000 + t.Year.toNat / 100 % 10 * 100
        + t.Year.toNat / 10 % 10 * 10 + t.Year.toNat % 10 = t.Year.toNat := by omega
    have eyi : ((t.Year.toNat / 1000 * 1000 + t.Year.toNat / 100 % 10 * 100
        + t.Year.toNat / 10 % 10 * 10 + t.Year.toNat % 10 : Nat) : Int) = t.Year := by
      rw [ey]
      exact Int.toNat_of_nonneg hy0
    have em : t.Month / 10 * 10 + t.Month % 10 = t.Month := by omega
    have ed : t.Day / 10 * 10 + t.Day % 10 = t.Day := by omega
    have eh : t.Hour / 10 * 10 + t.Hour % 10 = t.Hour := by omega
    have en : t.Minute / 10 * 10 + t.Minute % 10 = t.Minute := by omega
    have es : t.Second / 10 * 10 + t.Second % 10 = t.Second := by omega
    rw [hfmt, Parse_default_digits _ _ _ _ _ _ _ _ _ _ _ _ _ _
      (by omega) (by omega) (by omega) (by omega) (by omega) (by omega) (by omega) (by omega)
      (by omega) (by omega) (by omega) (by omega) (by omega) (by omega)
      (by rw [em]; exact ⟨hm0, hm⟩) (by rw [em, ed, eyi]; exact ⟨hd0, hd⟩)
      (by omega) (by omega) (by omega)]
    rw [eyi, em, ed, eh, en, es]
    rfl
  refine ⟨t.Format defaultLogTimeFormat, rfl, rfl, hfmt, ?_, hparse, ?_, ?_⟩
  · rw [hfmt]
    rfl
  · rw [hparse]
    constructor
    · intro h
      have h2 := congrArg (fun o : Option Time => o.map (fun x => x.Offset)) h
      simp only [Option.map_some', Time.truncateSecond, Option.some.injEq] at h2
      exact h2.symm
    · intro h
      simp only [Time.truncateSecond, h]
  · intro p hp
    rw [hparse] at hp
    simp only [Option.some.injEq] at hp
    subst hp
    simp only [Time.Unix, Time.truncateSecond]
    constructor
    · omega
    · trivial

/-- C9 amended, at concrete inputs: 2024-01-02 03:04:05 and a fraction of a
second in UTC is written as "2024-01-02 03:04:05" and read back as that second;
the same reading eight hours east of UTC is written the same and read back as
the reading in UTC. -/
theorem EchoTimeEncoder_format_roundtrip_witness :
    sampleNow.Valid ∧ sampleNow.Offset = 0 ∧
    (∃ s : String,
      EchoTimeEncoder sampleNow [] = [] ++ [s] ∧
      s = "2024-01-02 03:04:05" ∧
      s.length = 19 ∧
      Parse defaultLogTimeFormat s = some sampleNow.truncateSecond) ∧
    (∃ s : String,
      EchoTimeEncoder sampleEast [] = [] ++ [s] ∧
      Parse defaultLogTimeFormat s = some { sampleEast.truncateSecond with Offset := 0 }) := by
  refine ⟨by decide, by decide, ?_, ?_⟩
  · obtain ⟨s, _, h2, h3, h4, _, h6, _⟩ :=
      EchoTimeEncoder_format_roundtrip sampleNow [] (by decide)
    exact ⟨s, h2, h3.trans (by decide), h4, h6.mpr (by decide)⟩
  · obtain ⟨s, _, h2, _, _, h5, _, _⟩ :=
      EchoTimeEncoder_format_roundtrip sampleEast [] (by decide)
    exact ⟨s, h2, h5⟩

end Qlog
